import Mathlib

/-!
Shallow embedding of the STM32L476RG ADC polling firmware (src/src/main.cpp):
`adc_init`, `adc_read` and the framing main loop, modelled as transformers on
an explicit register file together with a trace of memory-mapped register
accesses, pin writes and serial writes.  Busy-waits on hardware flags are
modelled by the completing action of the hardware (per the reference manual:
disable clears ADEN/ADDIS, calibration clears ADCAL, enable sets ADRDY,
conversion sets EOC, loads DR and clears ADSTART) followed by the successful
observation of the polled register.  The ADC status register ISR is
write-1-to-clear: a CPU write of value `v` clears exactly the bits set in `v`.
-/

namespace ADCBaremetal

/-- 0xFFFFFFFF, the all-ones 32-bit word. -/
def MASK32 : Nat := 4294967295

/-- C bitwise complement `~m` on a 32-bit unsigned word. -/
def compl32 (m : Nat) : Nat := MASK32 ^^^ m

-- Register/bit constants from the CMSIS header stm32l476xx.h
def RCC_AHB2ENR_GPIOAEN : Nat := 1
def RCC_AHB2ENR_ADCEN : Nat := 8192
def RCC_CCIPR_ADCSEL : Nat := 3 <<< 28
def ADC_CCR_PRESC : Nat := 15 <<< 18
def ADC_CCR_PRESC_2 : Nat := 4 <<< 18
def ADC_CR_ADEN : Nat := 1
def ADC_CR_ADDIS : Nat := 2
def ADC_CR_ADSTART : Nat := 4
def ADC_CR_ADVREGEN : Nat := 1 <<< 28
def ADC_CR_DEEPPWD : Nat := 1 <<< 29
def ADC_CR_ADCAL : Nat := 1 <<< 31
def ADC_ISR_ADRDY : Nat := 1
def ADC_ISR_EOC : Nat := 4
def ADC_CFGR_CONT : Nat := 1 <<< 13
def ADC_CFGR_RES : Nat := 3 <<< 3
def ADC_SQR1_L : Nat := 15

-- App configuration constants from main.cpp
def ADC_CHANNEL : Nat := 5
def ADC_PIN : Nat := 0
def SAMP_TIME : Nat := 0
def PIN_SAMPLE : Nat := 3
def PIN_SERIAL : Nat := 4

/-- The memory-mapped registers touched by the program, plus the two probe
pin levels.  Register values are natural numbers standing for 32-bit words. -/
structure ADCRegs where
  AHB2ENR : Nat
  CCIPR : Nat
  CCR : Nat
  CR : Nat
  ISR : Nat
  CFGR : Nat
  SMPR1 : Nat
  SQR1 : Nat
  DR : Nat
  MODER : Nat
  ASCR : Nat
  pinSample : Bool
  pinSerial : Bool
deriving DecidableEq

/-- A power-on-reset register file: every register and pin at zero. -/
def zeroRegs : ADCRegs :=
  ⟨0, 0, 0, 0, 0, 0, 0, 0, 0, 0, 0, false, false⟩

/-- Names of the registers appearing in access events. -/
inductive Reg where
  | AHB2ENR | CCIPR | CCR | CR | ISR | CFGR | SMPR1 | SQR1 | DR | MODER | ASCR
deriving DecidableEq

/-- Observable actions of the firmware: a register write (recording the value
the CPU puts on the bus), the successful polled read ending a busy-wait or the
result-register read, a digital pin write and a serial byte write. -/
inductive Event where
  | writeReg (r : Reg) (v : Nat)
  | readReg (r : Reg) (v : Nat)
  | pinWrite (pin : Nat) (level : Bool)
  | serialWrite (b : Nat)
deriving DecidableEq

/-- Effect on the ISR status register of the CPU writing value `v`:
ISR is write-1-to-clear, so every bit set in `v` is cleared. -/
def w1cWrite (isr v : Nat) : Nat := isr &&& compl32 v

/-- `ADC1->ISR |= ADC_ISR_EOC`: the read-modify-write the driver uses to
clear the end-of-conversion flag, applied to the w1c register. -/
def isrClearEOC (isr : Nat) : Nat := w1cWrite isr (isr ||| ADC_ISR_EOC)

/-- `adc_init` phase 1 (lines 71-79): enable the ADC clock, select its clock
source and set the common prescaler. -/
def rccPhase (s : ADCRegs) : ADCRegs × List Event :=
  let a := s.AHB2ENR ||| RCC_AHB2ENR_ADCEN
  let s1 := { s with AHB2ENR := a }
  let ci := s1.CCIPR ||| RCC_CCIPR_ADCSEL
  let s2 := { s1 with CCIPR := ci }
  let cc1 := s2.CCR &&& compl32 ADC_CCR_PRESC
  let s3 := { s2 with CCR := cc1 }
  let cc2 := s3.CCR ||| ADC_CCR_PRESC_2
  let s4 := { s3 with CCR := cc2 }
  (s4, [.writeReg .AHB2ENR a, .writeReg .CCIPR ci, .writeReg .CCR cc1,
        .writeReg .CCR cc2])

/-- `adc_init` lines 81-84: if the ADC reports itself enabled, request disable
and spin until ADEN clears (the hardware clears ADEN and ADDIS when the
power-down procedure completes; the wait ends with an observation of CR with
ADEN clear). -/
def adcDisable (s : ADCRegs) : ADCRegs × List Event :=
  if s.CR &&& ADC_CR_ADEN ≠ 0 then
    let w := s.CR ||| ADC_CR_ADDIS
    let cr := w &&& compl32 (ADC_CR_ADEN ||| ADC_CR_ADDIS)
    ({ s with CR := cr }, [.writeReg .CR w, .readReg .CR cr])
  else
    (s, [])

/-- `adc_init` lines 86-90: exit deep-power-down, enable the internal
regulator, then busy-loop for the regulator settle time (no register access
during the delay loop). -/
def regulatorPhase (s : ADCRegs) : ADCRegs × List Event :=
  let cr1 := s.CR &&& compl32 ADC_CR_DEEPPWD
  let s1 := { s with CR := cr1 }
  let cr2 := s1.CR ||| ADC_CR_ADVREGEN
  let s2 := { s1 with CR := cr2 }
  (s2, [.writeReg .CR cr1, .writeReg .CR cr2])

/-- The register state from which `adc_init` issues its calibration-start
write: after the RCC phase, the conditional disable, and the regulator
phase. -/
def initPreCal (s : ADCRegs) : ADCRegs :=
  (regulatorPhase (adcDisable (rccPhase s).1).1).1

/-- `adc_init` lines 92-93: write ADCAL to start self-calibration and spin
until the hardware clears it; the wait ends with an observation of CR with
ADCAL clear. -/
def calPhase (s : ADCRegs) : ADCRegs × List Event :=
  let w := s.CR ||| ADC_CR_ADCAL
  let cr := w &&& compl32 ADC_CR_ADCAL
  ({ s with CR := cr }, [.writeReg .CR w, .readReg .CR cr])

/-- `adc_init` lines 95-104: single conversion mode, 12-bit resolution,
channel sample time, one conversion in the regular sequence. -/
def cfgPhase (s : ADCRegs) : ADCRegs × List Event :=
  let cf1 := s.CFGR &&& compl32 ADC_CFGR_CONT
  let s1 := { s with CFGR := cf1 }
  let cf2 := s1.CFGR &&& compl32 ADC_CFGR_RES
  let s2 := { s1 with CFGR := cf2 }
  let sm1 := s2.SMPR1 &&& compl32 (7 <<< (ADC_CHANNEL * 3))
  let s3 := { s2 with SMPR1 := sm1 }
  let sm2 := s3.SMPR1 ||| (SAMP_TIME <<< (ADC_CHANNEL * 3))
  let s4 := { s3 with SMPR1 := sm2 }
  let sq := s4.SQR1 &&& compl32 ADC_SQR1_L
  let s5 := { s4 with SQR1 := sq }
  (s5, [.writeReg .CFGR cf1, .writeReg .CFGR cf2, .writeReg .SMPR1 sm1,
        .writeReg .SMPR1 sm2, .writeReg .SQR1 sq])

/-- `adc_init` lines 106-108: set ADEN and spin until the hardware asserts
ADRDY in ISR; the wait ends with an observation of ISR with ADRDY set. -/
def enablePhase (s : ADCRegs) : ADCRegs × List Event :=
  let w := s.CR ||| ADC_CR_ADEN
  let s1 := { s with CR := w }
  let ir := s1.ISR ||| ADC_ISR_ADRDY
  let s2 := { s1 with ISR := ir }
  (s2, [.writeReg .CR w, .readReg .ISR ir])

/-- `adc_init` (main.cpp lines 69-108). -/
def adc_init (s : ADCRegs) : ADCRegs × List Event :=
  let p1 := rccPhase s
  let p2 := adcDisable p1.1
  let p3 := regulatorPhase p2.1
  let p4 := calPhase p3.1
  let p5 := cfgPhase p4.1
  let p6 := enablePhase p5.1
  (p6.1, p1.2 ++ p2.2 ++ p3.2 ++ p4.2 ++ p5.2 ++ p6.2)

/-- `adc_read` (main.cpp lines 115-129).  `raw` is the conversion result the
hardware loads into DR when the conversion completes; `ch` is the `channel`
argument (a `uint8_t`).  Returns the `uint16_t` return value, the final
state, and the trace.  Hardware actions modelled at the EOC wait: EOC set,
DR loaded, ADSTART cleared; reading DR clears EOC. -/
def adc_read (raw ch : Nat) (s : ADCRegs) : Nat × ADCRegs × List Event :=
  let s0 := { s with pinSample := true }
  let sq1 := s0.SQR1 &&& compl32 (31 <<< 6)
  let s1 := { s0 with SQR1 := sq1 }
  let sq2 := s1.SQR1 ||| (ch <<< 6)
  let s2 := { s1 with SQR1 := sq2 }
  let isrW := s2.ISR ||| ADC_ISR_EOC
  let s3 := { s2 with ISR := w1cWrite s2.ISR isrW }
  let crW := s3.CR ||| ADC_CR_ADSTART
  let s4 := { s3 with CR := crW }
  let isrE := s4.ISR ||| ADC_ISR_EOC
  let s5 := { s4 with ISR := isrE, DR := raw,
                      CR := s4.CR &&& compl32 ADC_CR_ADSTART }
  let s6 := { s5 with pinSample := false }
  let dr := s6.DR
  let s7 := { s6 with ISR := s6.ISR &&& compl32 ADC_ISR_EOC }
  (dr % 65536, s7,
   [.pinWrite PIN_SAMPLE true, .writeReg .SQR1 sq1, .writeReg .SQR1 sq2,
    .writeReg .ISR isrW, .writeReg .CR crW, .readReg .ISR isrE,
    .pinWrite PIN_SAMPLE false, .readReg .DR dr])

/-- One iteration of the main loop body (main.cpp lines 49-59): read a
sample and emit the 4-byte frame bracketed by the serial probe pin. -/
def loopIter (raw : Nat) (s : ADCRegs) : ADCRegs × List Event :=
  let r := adc_read raw ADC_CHANNEL s
  let sample := r.1
  let s1 := { r.2.1 with pinSerial := true }
  let s2 := { s1 with pinSerial := false }
  (s2, r.2.2 ++
    [.pinWrite PIN_SERIAL true, .serialWrite 170, .serialWrite 170,
     .serialWrite ((sample &&& 255) % 256), .serialWrite ((sample >>> 8) % 256),
     .pinWrite PIN_SERIAL false])

/-- The main loop run for as many iterations as there are entries in `raws`,
iteration `k` converting to the raw result `raws[k]`. -/
def loopRun : List Nat → ADCRegs → ADCRegs × List Event
  | [], s => (s, [])
  | raw :: rest, s =>
    let r := loopIter raw s
    let r2 := loopRun rest r.1
    (r2.1, r.2 ++ r2.2)

/-- GPIO configuration in `main` (lines 34-36). -/
def gpioSetup (s : ADCRegs) : ADCRegs × List Event :=
  let a := s.AHB2ENR ||| RCC_AHB2ENR_GPIOAEN
  let s1 := { s with AHB2ENR := a }
  let m := s1.MODER ||| (3 <<< (ADC_PIN * 2))
  let s2 := { s1 with MODER := m }
  let asc := s2.ASCR ||| (1 <<< ADC_PIN)
  let s3 := { s2 with ASCR := asc }
  (s3, [.writeReg .AHB2ENR a, .writeReg .MODER m, .writeReg .ASCR asc])

/-- Everything `main` does before the loop: GPIO setup then `adc_init`
(serial begin, pinMode and the delay primitives touch none of the modelled
state). -/
def mainSetup (s : ADCRegs) : ADCRegs × List Event :=
  let g := gpioSetup s
  let i := adc_init g.1
  (i.1, g.2 ++ i.2)

/-- `main` (lines 29-61), with the infinite loop truncated to one iteration
per entry of `raws`. -/
def main (raws : List Nat) (s : ADCRegs) : ADCRegs × List Event :=
  let m := mainSetup s
  let l := loopRun raws m.1
  (l.1, m.2 ++ l.2)

/-- A sequence of `adc_read` calls, one per `(raw, channel)` pair, with the
concatenated trace. -/
def readMany : List (Nat × Nat) → ADCRegs → ADCRegs × List Event
  | [], s => (s, [])
  | c :: rest, s =>
    let r := adc_read c.1 c.2 s
    let r2 := readMany rest r.2.1
    (r2.1, r.2.2 ++ r2.2)

/-- The bytes sent over the serial sink, in order. -/
def serialBytes (tr : List Event) : List Nat :=
  tr.filterMap fun e =>
    match e with
    | .serialWrite b => some b
    | _ => none

/-- The levels written to the sample timing-probe pin, in order. -/
def probeEvents (tr : List Event) : List Bool :=
  tr.filterMap fun e =>
    match e with
    | .pinWrite p b => if p = PIN_SAMPLE then some b else none
    | _ => none


/-! ### Bit-algebra helper lemmas -/

lemma mask32_eq : MASK32 = 2 ^ 32 - 1 := rfl

lemma testBit_compl32 (m : Nat) {j : Nat} (hj : j < 32) :
    (compl32 m).testBit j = !(m.testBit j) := by
  unfold compl32
  rw [mask32_eq, Nat.testBit_xor, Nat.testBit_two_pow_sub_one]
  simp [hj]

lemma ne_zero_of_testBit {x : Nat} {i : Nat} (h : x.testBit i = true) : x ≠ 0 := by
  intro h0
  rw [h0] at h
  simp at h

lemma or_and_zero (x b m : Nat) (hb : b &&& m = 0) : (x ||| b) &&& m = x &&& m := by
  rw [Nat.and_distrib_right, hb, Nat.or_zero]

lemma or_and_self (x b m : Nat) (hb : b &&& m = b) : (x ||| b) &&& m = (x &&& m) ||| b := by
  rw [Nat.and_distrib_right, hb]

lemma or_ne_zero_right (x b : Nat) (hb : b ≠ 0) : x ||| b ≠ 0 := by
  obtain ⟨i, hi⟩ := Nat.ne_zero_implies_bit_true hb
  exact ne_zero_of_testBit (x := x ||| b) (i := i) (by simp [Nat.testBit_or, hi])

lemma and_mask_zero_of_left {x m : Nat} (c : Nat) (hx : x &&& m = 0) (hc : c &&& m = m) :
    (x &&& c) &&& m = 0 := by
  rw [Nat.and_assoc, hc, hx]

lemma and_mask_zero_of_mask (x c m : Nat) (hc : c &&& m = 0) : (x &&& c) &&& m = 0 := by
  rw [Nat.and_assoc, hc, Nat.and_zero]

lemma or_and_zero_of_both {x b m : Nat} (hx : x &&& m = 0) (hb : b &&& m = 0) :
    (x ||| b) &&& m = 0 := by
  rw [or_and_zero x b m hb, hx]

lemma testBit_31 (j : Nat) : Nat.testBit 31 j = decide (j < 5) := by
  rw [show (31 : Nat) = 2 ^ 5 - 1 from rfl, Nat.testBit_two_pow_sub_one]

lemma testBit_7 (j : Nat) : Nat.testBit 7 j = decide (j < 3) := by
  rw [show (7 : Nat) = 2 ^ 3 - 1 from rfl, Nat.testBit_two_pow_sub_one]

/-- The low byte plus the shifted high byte reconstruct the 16-bit sample. -/
lemma byte_roundtrip (s : Nat) : (s &&& 255) ||| ((s >>> 8) <<< 8) = s := by
  have hmod : s &&& 255 = s % 256 := by
    have h255 : (255 : Nat) = 2 ^ 8 - 1 := rfl
    rw [h255, Nat.and_pow_two_sub_one_eq_mod]
  have hdiv : s >>> 8 = s / 256 := by
    rw [Nat.shiftRight_eq_div_pow]
  have hshl : (s / 256) <<< 8 = 2 ^ 8 * (s / 256) := by
    rw [Nat.shiftLeft_eq]
    ring
  rw [hmod, hdiv, hshl, Nat.or_comm, ← Nat.mul_add_lt_is_or (by omega) (s / 256)]
  omega

/-- Writing the channel into SQ1 of SQR1 leaves it readable back, for any
channel below 32. -/
lemma sq1_field_after_set (x ch : Nat) (h : ch < 32) :
    (((x &&& compl32 (31 <<< 6)) ||| (ch <<< 6)) >>> 6) &&& 31 = ch := by
  apply Nat.eq_of_testBit_eq
  intro i
  rw [Nat.testBit_and, Nat.testBit_shiftRight, testBit_31]
  by_cases h5 : i < 5
  · have h32 : 6 + i < 32 := by omega
    rw [Nat.testBit_or, Nat.testBit_and, testBit_compl32 _ h32, Nat.testBit_shiftLeft,
      Nat.testBit_shiftLeft, show 6 + i - 6 = i from by omega, testBit_31]
    have h6 : 6 ≤ 6 + i := by omega
    simp [h5, h6]
  · have h5le : 5 ≤ i := by omega
    have h2i : (32 : Nat) ≤ 2 ^ i := by
      calc (32 : Nat) = 2 ^ 5 := rfl
        _ ≤ 2 ^ i := Nat.pow_le_pow_of_le_right (by omega) h5le
    have hch : ch.testBit i = false := Nat.testBit_lt_two_pow (lt_of_lt_of_le h h2i)
    simp [h5, hch]

/-- The SQ1 write of `adc_read` does not disturb the sequence-length field
L (bits 0-3) of SQR1. -/
lemma sqr1L_after_set (x ch : Nat) :
    ((x &&& compl32 (31 <<< 6)) ||| (ch <<< 6)) &&& 15 = x &&& 15 := by
  have hb : (ch <<< 6) &&& 15 = 0 := by
    have hs : ch <<< 6 = ch * 64 := by
      rw [Nat.shiftLeft_eq]
    have h15 : (15 : Nat) = 2 ^ 4 - 1 := rfl
    rw [hs, h15, Nat.and_pow_two_sub_one_eq_mod]
    omega
  rw [or_and_zero _ _ _ hb, Nat.and_assoc, show compl32 (31 <<< 6) &&& 15 = 15 from by decide]

/-- Clearing the sample-time field of SMPR1 leaves the field zero. -/
lemma smpr1_field_zero (x : Nat) : ((x &&& compl32 (7 <<< 15)) >>> 15) &&& 7 = 0 := by
  apply Nat.eq_of_testBit_eq
  intro i
  rw [Nat.testBit_and, Nat.testBit_shiftRight, Nat.testBit_and, testBit_7]
  by_cases h3 : i < 3
  · have h32 : 15 + i < 32 := by omega
    rw [testBit_compl32 _ h32, Nat.testBit_shiftLeft,
      show 15 + i - 15 = i from by omega, testBit_7]
    have h15 : 15 ≤ 15 + i := by omega
    simp [h3, h15]
  · simp [h3]

/-- A write-1-to-clear acknowledge computed from the current ISR value never
leaves the end-of-conversion bit set. -/
lemma isrClearEOC_and_EOC (x : Nat) : isrClearEOC x &&& ADC_ISR_EOC = 0 := by
  have hc : compl32 (x ||| ADC_ISR_EOC) &&& 4 = 0 := by
    apply Nat.eq_of_testBit_eq
    intro i
    rw [Nat.testBit_and]
    by_cases h2 : i = 2
    · subst h2
      rw [testBit_compl32 _ (by norm_num)]
      simp [Nat.testBit_or, ADC_ISR_EOC, show Nat.testBit 4 2 = true from by decide]
    · have h4 : (4 : Nat).testBit i = false := by
        rw [show (4 : Nat) = 2 ^ 2 from rfl, Nat.testBit_two_pow_of_ne (by omega)]
      simp [h4]
  show (x &&& compl32 (x ||| ADC_ISR_EOC)) &&& ADC_ISR_EOC = 0
  rw [show ADC_ISR_EOC = 4 from rfl] at hc ⊢
  rw [Nat.and_assoc, hc, Nat.and_zero]



/-! ### Claim theorems -/

/-- C1: in one main-loop iteration with sample value `raw` (0-4095), the
emitted frame is exactly [0xAA, 0xAA, low byte, high byte] with
low = raw & 0xFF and high = raw >> 8, and low ||| (high <<< 8) reconstructs
the sample. -/
theorem frame_shape_and_roundtrip (s : ADCRegs) (raw : Nat) (h : raw < 4096) :
    serialBytes (loopIter raw s).2 = [170, 170, raw &&& 255, raw >>> 8] ∧
    (raw &&& 255) ||| ((raw >>> 8) <<< 8) = raw := by
  constructor
  · have hs : (adc_read raw ADC_CHANNEL s).1 = raw := by
      show raw % 65536 = raw
      omega
    have hlow : (raw &&& 255) % 256 = raw &&& 255 :=
      Nat.mod_eq_of_lt (lt_of_le_of_lt (Nat.and_le_right) (by omega))
    have hhigh : (raw >>> 8) % 256 = raw >>> 8 := by
      rw [Nat.shiftRight_eq_div_pow]
      omega
    have hm : raw % 65536 = raw := by omega
    simp [loopIter, serialBytes, hs, hlow, hhigh, adc_read, hm]
  · exact byte_roundtrip raw

/-- Witness for C1 at the maximal 12-bit sample 0x0FFF. -/
theorem frame_shape_and_roundtrip_witness :
    (4095 : Nat) < 4096 ∧
    (serialBytes (loopIter 4095 zeroRegs).2 = [170, 170, 4095 &&& 255, 4095 >>> 8] ∧
     (4095 &&& 255) ||| ((4095 >>> 8) <<< 8) = 4095) :=
  ⟨by decide, frame_shape_and_roundtrip zeroRegs 4095 (by decide)⟩

/-- C5: `adc_read` returns the raw result-register value zero-extended, a
12-bit magnitude in 0-4095 (the hardware delivers a 12-bit result in 12-bit
resolution mode). -/
theorem adc_read_returns_raw (raw ch : Nat) (s : ADCRegs) (h : raw < 4096) :
    (adc_read raw ch s).1 = raw ∧ (adc_read raw ch s).1 < 4096 := by
  have hr : (adc_read raw ch s).1 = raw % 65536 := rfl
  rw [hr]
  omega

/-- Witness for C5 at raw value 2048 on channel 5. -/
theorem adc_read_returns_raw_witness :
    (2048 : Nat) < 4096 ∧
    ((adc_read 2048 5 zeroRegs).1 = 2048 ∧ (adc_read 2048 5 zeroRegs).1 < 4096) :=
  ⟨by decide, adc_read_returns_raw 2048 5 zeroRegs (by decide)⟩

/-- C8: from power-on reset, with the hardware returning the fixed raw value
2048 for the configured channel 5, one main-loop iteration puts exactly the
bytes 0xAA 0xAA 0x00 0x08 on the serial sink. -/
theorem end_to_end_2048 :
    serialBytes (ADCBaremetal.main [2048] zeroRegs).2 = [170, 170, 0, 8] ∧
    ADC_CHANNEL = 5 := by
  constructor
  · rfl
  · rfl

/-- C9: the flag clear in `adc_read` is a read-modify-write `ISR |= EOC` on
the write-1-to-clear status register: the written value keeps every currently
set status bit set, so the write acknowledges them all — afterwards the whole
(32-bit) status register reads zero, not just the EOC bit. -/
theorem isr_clear_clears_all_flags (isr : Nat) (h : isr < 2 ^ 32) :
    (∀ m, isr &&& m ≠ 0 → (isr ||| ADC_ISR_EOC) &&& m ≠ 0) ∧
    isrClearEOC isr = 0 := by
  constructor
  · intro m hm
    obtain ⟨i, hi⟩ := Nat.ne_zero_implies_bit_true hm
    rw [Nat.testBit_and] at hi
    have h1 : isr.testBit i = true := by
      cases hx : isr.testBit i
      · rw [hx] at hi
        simp at hi
      · rfl
    have h2 : m.testBit i = true := by
      cases hx : m.testBit i
      · rw [hx] at hi
        simp at hi
      · rfl
    apply ne_zero_of_testBit (i := i)
    simp [Nat.testBit_and, Nat.testBit_or, h1, h2]
  · show isr &&& compl32 (isr ||| ADC_ISR_EOC) = 0
    apply Nat.eq_of_testBit_eq
    intro i
    rw [Nat.testBit_and]
    by_cases h32 : i < 32
    · rw [testBit_compl32 _ h32]
      cases hx : isr.testBit i
      · simp
      · simp [Nat.testBit_or, hx]
    · have : isr.testBit i = false :=
        Nat.testBit_lt_two_pow
          (lt_of_lt_of_le h (Nat.pow_le_pow_of_le_right (by omega) (by omega)))
      simp [this]

/-- Witness for C9 at ISR value 21 = ADRDY + EOC + OVR all pending. -/
theorem isr_clear_clears_all_flags_witness :
    (21 : Nat) < 2 ^ 32 ∧
    ((∀ m, 21 &&& m ≠ 0 → (21 ||| ADC_ISR_EOC) &&& m ≠ 0) ∧ isrClearEOC 21 = 0) :=
  ⟨by norm_num, isr_clear_clears_all_flags 21 (by norm_num)⟩



/-- C2: in every `adc_read` call the trace contains the EOC-flag-clearing ISR
write strictly before the ADSTART-asserting CR write; every CR write in the
call is preceded by an EOC-clearing ISR write; and the write-1-to-clear
acknowledge guarantees no stale EOC flag remains observable when the start
bit is set. -/
theorem eoc_clear_before_start (raw ch : Nat) (s : ADCRegs) :
    (∃ i j v w : Nat, i < j ∧
      (adc_read raw ch s).2.2[i]? = some (Event.writeReg Reg.ISR v) ∧ v &&& ADC_ISR_EOC ≠ 0 ∧
      (adc_read raw ch s).2.2[j]? = some (Event.writeReg Reg.CR w) ∧ w &&& ADC_CR_ADSTART ≠ 0) ∧
    (∀ j w : Nat, (adc_read raw ch s).2.2[j]? = some (Event.writeReg Reg.CR w) →
      ∃ i v : Nat, i < j ∧ (adc_read raw ch s).2.2[i]? = some (Event.writeReg Reg.ISR v) ∧
        v &&& ADC_ISR_EOC ≠ 0) ∧
    (∀ x, isrClearEOC x &&& ADC_ISR_EOC = 0) := by
  have hEOC : ∀ y : Nat, (y ||| ADC_ISR_EOC) &&& ADC_ISR_EOC ≠ 0 := by
    intro y
    rw [or_and_self _ _ _ (by decide)]
    exact or_ne_zero_right _ _ (by decide)
  have hSTART : ∀ y : Nat, (y ||| ADC_CR_ADSTART) &&& ADC_CR_ADSTART ≠ 0 := by
    intro y
    rw [or_and_self _ _ _ (by decide)]
    exact or_ne_zero_right _ _ (by decide)
  refine ⟨⟨3, 4, s.ISR ||| ADC_ISR_EOC, s.CR ||| ADC_CR_ADSTART, by norm_num, rfl, hEOC _,
    rfl, hSTART _⟩, ?_, isrClearEOC_and_EOC⟩
  intro j w hj
  match j with
  | 0 => simp [adc_read] at hj
  | 1 => simp [adc_read] at hj
  | 2 => simp [adc_read] at hj
  | 3 => simp [adc_read] at hj
  | 4 => exact ⟨3, s.ISR ||| ADC_ISR_EOC, by norm_num, rfl, hEOC _⟩
  | 5 => simp [adc_read] at hj
  | 6 => simp [adc_read] at hj
  | 7 => simp [adc_read] at hj
  | n + 8 => simp [adc_read] at hj

/-- Witness for C2: the call on channel 5 from reset with raw result 0. -/
theorem eoc_clear_before_start_witness :
    (∃ i j v w : Nat, i < j ∧
      (adc_read 0 5 zeroRegs).2.2[i]? = some (Event.writeReg Reg.ISR v) ∧ v &&& ADC_ISR_EOC ≠ 0 ∧
      (adc_read 0 5 zeroRegs).2.2[j]? = some (Event.writeReg Reg.CR w) ∧ w &&& ADC_CR_ADSTART ≠ 0) ∧
    (∀ j w : Nat, (adc_read 0 5 zeroRegs).2.2[j]? = some (Event.writeReg Reg.CR w) →
      ∃ i v : Nat, i < j ∧ (adc_read 0 5 zeroRegs).2.2[i]? = some (Event.writeReg Reg.ISR v) ∧
        v &&& ADC_ISR_EOC ≠ 0) ∧
    (∀ x, isrClearEOC x &&& ADC_ISR_EOC = 0) :=
  eoc_clear_before_start 0 5 zeroRegs



lemma adcDisable_CFGR (t : ADCRegs) : (adcDisable t).1.CFGR = t.CFGR := by
  unfold adcDisable
  split <;> rfl

lemma adcDisable_SMPR1 (t : ADCRegs) : (adcDisable t).1.SMPR1 = t.SMPR1 := by
  unfold adcDisable
  split <;> rfl

lemma adcDisable_SQR1 (t : ADCRegs) : (adcDisable t).1.SQR1 = t.SQR1 := by
  unfold adcDisable
  split <;> rfl

lemma adcDisable_CR_pos (t : ADCRegs) (h : t.CR &&& ADC_CR_ADEN ≠ 0) :
    (adcDisable t).1.CR =
      (t.CR ||| ADC_CR_ADDIS) &&& compl32 (ADC_CR_ADEN ||| ADC_CR_ADDIS) := by
  unfold adcDisable
  rw [if_pos h]

lemma adcDisable_CR_neg (t : ADCRegs) (h : ¬t.CR &&& ADC_CR_ADEN ≠ 0) :
    (adcDisable t).1.CR = t.CR := by
  unfold adcDisable
  rw [if_neg h]

lemma adcDisable_trace_pos (t : ADCRegs) (h : t.CR &&& ADC_CR_ADEN ≠ 0) :
    (adcDisable t).2 =
      [Event.writeReg Reg.CR (t.CR ||| ADC_CR_ADDIS),
       Event.readReg Reg.CR
         ((t.CR ||| ADC_CR_ADDIS) &&& compl32 (ADC_CR_ADEN ||| ADC_CR_ADDIS))] := by
  unfold adcDisable
  rw [if_pos h]

/-- After `adc_init` the CFGR register is the entry value with the CONT and
RES fields cleared. -/
lemma adc_init_CFGR (s : ADCRegs) :
    (adc_init s).1.CFGR = (s.CFGR &&& compl32 ADC_CFGR_CONT) &&& compl32 ADC_CFGR_RES := by
  simp [adc_init, enablePhase, cfgPhase, calPhase, regulatorPhase, adcDisable_CFGR, rccPhase]

lemma adc_init_SMPR1 (s : ADCRegs) :
    (adc_init s).1.SMPR1 =
      (s.SMPR1 &&& compl32 (7 <<< (ADC_CHANNEL * 3))) |||
        (SAMP_TIME <<< (ADC_CHANNEL * 3)) := by
  simp [adc_init, enablePhase, cfgPhase, calPhase, regulatorPhase, adcDisable_SMPR1, rccPhase]

lemma adc_init_SQR1 (s : ADCRegs) :
    (adc_init s).1.SQR1 = s.SQR1 &&& compl32 ADC_SQR1_L := by
  simp [adc_init, enablePhase, cfgPhase, calPhase, regulatorPhase, adcDisable_SQR1, rccPhase]

/-- C6: when `adc_init` returns, continuous mode is off (single-shot), the
resolution field selects 12-bit (RES = 0), the sample-time code of channel 5
is the build-time value SAMP_TIME, and the regular-sequence length field L is
zero, i.e. exactly one conversion per sequence. -/
theorem init_configures_single_shot (s : ADCRegs) :
    (adc_init s).1.CFGR &&& ADC_CFGR_CONT = 0 ∧
    (adc_init s).1.CFGR &&& ADC_CFGR_RES = 0 ∧
    ((adc_init s).1.SMPR1 >>> (ADC_CHANNEL * 3)) &&& 7 = SAMP_TIME ∧
    (adc_init s).1.SQR1 &&& ADC_SQR1_L = 0 := by
  refine ⟨?_, ?_, ?_, ?_⟩
  · rw [adc_init_CFGR, Nat.and_assoc, Nat.and_assoc,
      show compl32 ADC_CFGR_RES &&& ADC_CFGR_CONT = ADC_CFGR_CONT from by decide,
      show compl32 ADC_CFGR_CONT &&& ADC_CFGR_CONT = 0 from by decide, Nat.and_zero]
  · rw [adc_init_CFGR, Nat.and_assoc, Nat.and_assoc,
      show compl32 ADC_CFGR_RES &&& ADC_CFGR_RES = 0 from by decide, Nat.and_zero,
      Nat.and_zero]
  · rw [adc_init_SMPR1]
    show ((s.SMPR1 &&& compl32 (7 <<< 15)) ||| (0 <<< 15)) >>> 15 &&& 7 = 0
    rw [show (0 : Nat) <<< 15 = 0 from rfl, Nat.or_zero]
    exact smpr1_field_zero s.SMPR1
  · rw [adc_init_SQR1, Nat.and_assoc,
      show compl32 ADC_SQR1_L &&& ADC_SQR1_L = 0 from by decide, Nat.and_zero]

/-- C7: `adc_init` reaches its calibration-start write only with the ADC
disabled: the CR state feeding the ADCAL write has ADEN clear, the written
ADCAL value itself has ADEN clear, and if the peripheral reported itself
enabled at entry the trace shows the ADDIS request followed by the blocking
wait observing ADEN cleared. -/
theorem calibration_only_when_disabled (s : ADCRegs) :
    (initPreCal s).CR &&& ADC_CR_ADEN = 0 ∧
    ((initPreCal s).CR ||| ADC_CR_ADCAL) &&& ADC_CR_ADEN = 0 ∧
    (s.CR &&& ADC_CR_ADEN ≠ 0 →
      (adcDisable (rccPhase s).1).2 =
        [Event.writeReg Reg.CR (s.CR ||| ADC_CR_ADDIS),
         Event.readReg Reg.CR
           ((s.CR ||| ADC_CR_ADDIS) &&& compl32 (ADC_CR_ADEN ||| ADC_CR_ADDIS))] ∧
      ((s.CR ||| ADC_CR_ADDIS) &&& compl32 (ADC_CR_ADEN ||| ADC_CR_ADDIS)) &&&
        ADC_CR_ADEN = 0) := by
  have hrc : (rccPhase s).1.CR = s.CR := rfl
  have hpre : (initPreCal s).CR =
      ((adcDisable (rccPhase s).1).1.CR &&& compl32 ADC_CR_DEEPPWD) ||| ADC_CR_ADVREGEN := rfl
  have key : (initPreCal s).CR &&& ADC_CR_ADEN = 0 := by
    rw [hpre]
    by_cases h : s.CR &&& ADC_CR_ADEN ≠ 0
    · rw [adcDisable_CR_pos _ (by rw [hrc]; exact h), hrc]
      apply or_and_zero_of_both _ (by decide)
      apply and_mask_zero_of_left _ _ (by decide)
      exact and_mask_zero_of_mask _ _ _ (by decide)
    · rw [adcDisable_CR_neg _ (by rw [hrc]; exact h), hrc]
      push_neg at h
      apply or_and_zero_of_both _ (by decide)
      exact and_mask_zero_of_left _ h (by decide)
  refine ⟨key, or_and_zero_of_both key (by decide), ?_⟩
  intro h
  refine ⟨?_, and_mask_zero_of_mask _ _ _ (by decide)⟩
  rw [adcDisable_trace_pos _ (by rw [hrc]; exact h), hrc]

/-- Witness for C7: entry state with the ADC already enabled (CR = ADEN). -/
theorem calibration_only_when_disabled_witness :
    (initPreCal { zeroRegs with CR := 1 }).CR &&& ADC_CR_ADEN = 0 ∧
    ((initPreCal { zeroRegs with CR := 1 }).CR ||| ADC_CR_ADCAL) &&& ADC_CR_ADEN = 0 ∧
    (({ zeroRegs with CR := 1 } : ADCRegs).CR &&& ADC_CR_ADEN ≠ 0 →
      (adcDisable (rccPhase { zeroRegs with CR := 1 }).1).2 =
        [Event.writeReg Reg.CR (({ zeroRegs with CR := 1 } : ADCRegs).CR ||| ADC_CR_ADDIS),
         Event.readReg Reg.CR
           ((({ zeroRegs with CR := 1 } : ADCRegs).CR ||| ADC_CR_ADDIS) &&&
             compl32 (ADC_CR_ADEN ||| ADC_CR_ADDIS))] ∧
      ((({ zeroRegs with CR := 1 } : ADCRegs).CR ||| ADC_CR_ADDIS) &&&
        compl32 (ADC_CR_ADEN ||| ADC_CR_ADDIS)) &&& ADC_CR_ADEN = 0) :=
  calibration_only_when_disabled { zeroRegs with CR := 1 }



/-- The SQR1 value after one `adc_read`: channel field overwritten. -/
lemma adc_read_SQR1 (raw ch : Nat) (s : ADCRegs) :
    (adc_read raw ch s).2.1.SQR1 = (s.SQR1 &&& compl32 (31 <<< 6)) ||| (ch <<< 6) := rfl

/-- No `adc_read` call sequence disturbs the L field (bits 0-3) of SQR1. -/
lemma readMany_L (calls : List (Nat × Nat)) (t : ADCRegs) :
    (readMany calls t).1.SQR1 &&& 15 = t.SQR1 &&& 15 := by
  induction calls generalizing t with
  | nil => rfl
  | cons c rest ih =>
    show (readMany rest (adc_read c.1 c.2 t).2.1).1.SQR1 &&& 15 = t.SQR1 &&& 15
    rw [ih, adc_read_SQR1, sqr1L_after_set]

lemma readMany_append (l1 l2 : List (Nat × Nat)) (t : ADCRegs) :
    (readMany (l1 ++ l2) t).1 = (readMany l2 (readMany l1 t).1).1 := by
  induction l1 generalizing t with
  | nil => rfl
  | cons c rest ih =>
    show (readMany (rest ++ l2) (adc_read c.1 c.2 t).2.1).1 = _
    exact ih _

/-- C3: after `adc_init` followed by any number of `adc_read` calls with
channels in the 5-bit channel-field range of the peripheral, the regular-sequence
length field of SQR1 stays zero (one conversion), and after at least one call
the sole sequence entry SQ1 equals the channel of the most recent call. -/
theorem single_entry_sequence (s : ADCRegs) (calls : List (Nat × Nat)) :
    (readMany calls (adc_init s).1).1.SQR1 &&& ADC_SQR1_L = 0 ∧
    (∀ c : Nat × Nat, (∀ x ∈ calls, x.2 < 32) → calls.getLast? = some c →
      ((readMany calls (adc_init s).1).1.SQR1 >>> 6) &&& 31 = c.2) := by
  constructor
  · rw [show ADC_SQR1_L = 15 from rfl, readMany_L, adc_init_SQR1, Nat.and_assoc,
      show compl32 ADC_SQR1_L &&& 15 = 0 from by decide, Nat.and_zero]
  · intro c hall hlast
    rcases List.eq_nil_or_concat calls with hnil | ⟨l, b, hconcat⟩
    · rw [hnil] at hlast
      simp at hlast
    · subst hconcat
      rw [List.concat_eq_append, List.getLast?_concat] at hlast
      have hb : b = c := by
        injection hlast
      subst hb
      have hb32 : b.2 < 32 := hall b (by simp)
      rw [List.concat_eq_append, readMany_append]
      show ((adc_read b.1 b.2 (readMany l (adc_init s).1).1).2.1.SQR1 >>> 6) &&& 31 = b.2
      rw [adc_read_SQR1]
      exact sq1_field_after_set _ _ hb32

/-- Witness for C3: two calls on channels 6 then 7 from reset. -/
theorem single_entry_sequence_witness :
    (readMany [(11, 6), (22, 7)] (adc_init zeroRegs).1).1.SQR1 &&& ADC_SQR1_L = 0 ∧
    (∀ c : Nat × Nat, (∀ x ∈ [(11, 6), (22, 7)], x.2 < 32) →
      [(11, 6), (22, 7)].getLast? = some c →
      ((readMany [(11, 6), (22, 7)] (adc_init zeroRegs).1).1.SQR1 >>> 6) &&& 31 = c.2) :=
  single_entry_sequence zeroRegs [(11, 6), (22, 7)]

/-- One `adc_read` writes the probe pin high then low, in that order. -/
lemma probeEvents_adc_read (raw ch : Nat) (s : ADCRegs) :
    probeEvents (adc_read raw ch s).2.2 = [true, false] := rfl

lemma probeEvents_append (t1 t2 : List Event) :
    probeEvents (t1 ++ t2) = probeEvents t1 ++ probeEvents t2 :=
  List.filterMap_append t1 t2 _

/-- C10: every `adc_read` drives the sample probe pin high as its very first
action (before any register write), drives it low after the end-of-conversion
wait and before the result-register read, returns with the pin low, and
across any sequence of calls the probe writes are strictly alternating
high/low pairs, one pair per call. -/
theorem probe_pin_bracketing (raw ch : Nat) (s : ADCRegs)
    (calls : List (Nat × Nat)) (t : ADCRegs) :
    (adc_read raw ch s).2.2.head? = some (Event.pinWrite PIN_SAMPLE true) ∧
    (∃ p : List Event, ∃ v d : Nat,
      (adc_read raw ch s).2.2 =
        p ++ [Event.readReg Reg.ISR v, Event.pinWrite PIN_SAMPLE false,
              Event.readReg Reg.DR d] ∧
      v &&& ADC_ISR_EOC ≠ 0) ∧
    (adc_read raw ch s).2.1.pinSample = false ∧
    probeEvents (readMany calls t).2 = (List.replicate calls.length [true, false]).flatten := by
  refine ⟨rfl, ?_, rfl, ?_⟩
  · refine ⟨[Event.pinWrite PIN_SAMPLE true,
      Event.writeReg Reg.SQR1 (s.SQR1 &&& compl32 (31 <<< 6)),
      Event.writeReg Reg.SQR1 ((s.SQR1 &&& compl32 (31 <<< 6)) ||| (ch <<< 6)),
      Event.writeReg Reg.ISR (s.ISR ||| ADC_ISR_EOC),
      Event.writeReg Reg.CR (s.CR ||| ADC_CR_ADSTART)],
      isrClearEOC s.ISR ||| ADC_ISR_EOC, raw, rfl, ?_⟩
    rw [or_and_self _ _ _ (by decide)]
    exact or_ne_zero_right _ _ (by decide)
  · induction calls generalizing t with
    | nil => rfl
    | cons c rest ih =>
      show probeEvents ((adc_read c.1 c.2 t).2.2 ++ (readMany rest (adc_read c.1 c.2 t).2.1).2) = _
      rw [probeEvents_append, probeEvents_adc_read, List.length_cons, List.replicate_succ,
        List.flatten_cons, ih]

/-- Witness for C10: one call with raw result 0 on channel 5 from reset. -/
theorem probe_pin_bracketing_witness :
    (adc_read 0 5 zeroRegs).2.2.head? = some (Event.pinWrite PIN_SAMPLE true) ∧
    (∃ p : List Event, ∃ v d : Nat,
      (adc_read 0 5 zeroRegs).2.2 =
        p ++ [Event.readReg Reg.ISR v, Event.pinWrite PIN_SAMPLE false,
              Event.readReg Reg.DR d] ∧
      v &&& ADC_ISR_EOC ≠ 0) ∧
    (adc_read 0 5 zeroRegs).2.1.pinSample = false ∧
    probeEvents (readMany [(0, 5)] zeroRegs).2 =
      (List.replicate ([(0, 5)] : List (Nat × Nat)).length [true, false]).flatten :=
  probe_pin_bracketing 0 5 zeroRegs [(0, 5)] zeroRegs



lemma adcDisable_trace_neg (t : ADCRegs) (h : ¬t.CR &&& ADC_CR_ADEN ≠ 0) :
    (adcDisable t).2 = [] := by
  unfold adcDisable
  rw [if_neg h]

lemma adcDisable_CR (t : ADCRegs) :
    (adcDisable t).1.CR &&& ADC_CR_ADSTART = t.CR &&& ADC_CR_ADSTART := by
  unfold adcDisable
  split
  · show ((t.CR ||| ADC_CR_ADDIS) &&& compl32 (ADC_CR_ADEN ||| ADC_CR_ADDIS)) &&&
      ADC_CR_ADSTART = t.CR &&& ADC_CR_ADSTART
    rw [Nat.and_assoc,
      show compl32 (ADC_CR_ADEN ||| ADC_CR_ADDIS) &&& ADC_CR_ADSTART = ADC_CR_ADSTART from
        by decide,
      or_and_zero _ _ _ (by decide)]
  · rfl

/-- Every CR write recorded by `adc_init` from a state with ADSTART clear has
the ADSTART bit clear, and the last event of `adc_init` is the observation of
ISR with the ready flag set. -/
lemma adc_init_trace_props (t : ADCRegs) (h : t.CR &&& ADC_CR_ADSTART = 0) :
    (∃ v : Nat, (adc_init t).2.getLast? = some (Event.readReg Reg.ISR v) ∧
      v &&& ADC_ISR_ADRDY ≠ 0) ∧
    (∀ w : Nat, Event.writeReg Reg.CR w ∈ (adc_init t).2 → w &&& ADC_CR_ADSTART = 0) := by
  have hrc : (rccPhase t).1.CR = t.CR := rfl
  constructor
  · refine ⟨((cfgPhase (calPhase (regulatorPhase (adcDisable (rccPhase t).1).1).1).1).1.ISR |||
      ADC_ISR_ADRDY), ?_, ?_⟩
    · show ((rccPhase t).2 ++ (adcDisable (rccPhase t).1).2 ++ _ ++ _ ++ _ ++ _).getLast? = _
      simp [List.getLast?_append, enablePhase]
    · rw [or_and_self _ _ _ (by decide)]
      exact or_ne_zero_right _ _ (by decide)
  · intro w hw
    have hD : (adcDisable (rccPhase t).1).1.CR &&& ADC_CR_ADSTART = 0 := by
      rw [adcDisable_CR, hrc, h]
    have hDw : ∀ u : Nat, Event.writeReg Reg.CR u ∈ (adcDisable (rccPhase t).1).2 →
        u &&& ADC_CR_ADSTART = 0 := by
      intro u hu
      by_cases hen : (rccPhase t).1.CR &&& ADC_CR_ADEN ≠ 0
      · rw [adcDisable_trace_pos _ hen] at hu
        simp at hu
        rw [hu, hrc]
        exact or_and_zero_of_both h (by decide)
      · rw [adcDisable_trace_neg _ hen] at hu
        simp at hu
    set X := (adcDisable (rccPhase t).1).1.CR with hX
    have hcr1 : (X &&& compl32 ADC_CR_DEEPPWD) &&& ADC_CR_ADSTART = 0 :=
      and_mask_zero_of_left _ hD (by decide)
    have hcr2 : ((X &&& compl32 ADC_CR_DEEPPWD) ||| ADC_CR_ADVREGEN) &&& ADC_CR_ADSTART = 0 :=
      or_and_zero_of_both hcr1 (by decide)
    have hcal : (((X &&& compl32 ADC_CR_DEEPPWD) ||| ADC_CR_ADVREGEN) ||| ADC_CR_ADCAL) &&&
        ADC_CR_ADSTART = 0 :=
      or_and_zero_of_both hcr2 (by decide)
    have hcr4 : ((((X &&& compl32 ADC_CR_DEEPPWD) ||| ADC_CR_ADVREGEN) ||| ADC_CR_ADCAL) &&&
        compl32 ADC_CR_ADCAL) &&& ADC_CR_ADSTART = 0 :=
      and_mask_zero_of_left _ hcal (by decide)
    have hen2 : (((((X &&& compl32 ADC_CR_DEEPPWD) ||| ADC_CR_ADVREGEN) ||| ADC_CR_ADCAL) &&&
        compl32 ADC_CR_ADCAL) ||| ADC_CR_ADEN) &&& ADC_CR_ADSTART = 0 :=
      or_and_zero_of_both hcr4 (by decide)
    have hmem : Event.writeReg Reg.CR w ∈
        (rccPhase t).2 ++ (adcDisable (rccPhase t).1).2 ++
        (regulatorPhase (adcDisable (rccPhase t).1).1).2 ++
        (calPhase (regulatorPhase (adcDisable (rccPhase t).1).1).1).2 ++
        (cfgPhase (calPhase (regulatorPhase (adcDisable (rccPhase t).1).1).1).1).2 ++
        (enablePhase (cfgPhase (calPhase (regulatorPhase
          (adcDisable (rccPhase t).1).1).1).1).1).2 := hw
    rw [List.mem_append, List.mem_append, List.mem_append, List.mem_append,
      List.mem_append] at hmem
    rcases hmem with ((((hm | hm) | hm) | hm) | hm) | hm
    · simp [rccPhase] at hm
    · exact hDw w hm
    · simp [regulatorPhase] at hm
      rcases hm with hm | hm
      · rw [hm]
        exact hcr1
      · rw [hm]
        exact hcr2
    · simp [calPhase, regulatorPhase] at hm
      rw [hm]
      exact hcal
    · simp [cfgPhase] at hm
    · simp [enablePhase, cfgPhase, calPhase, regulatorPhase] at hm
      rw [hm]
      exact hen2

/-- C4: from any start state with no conversion in flight, the whole pre-loop
trace of `main` (setup plus `adc_init`) ends with the observation of the
ready flag, every CR write in it has the start-conversion bit clear, and all
loop activity — hence every `adc_read` action — appears strictly after it. -/
theorem convert_unreachable_before_ready (s : ADCRegs) (raws : List Nat)
    (h : s.CR &&& ADC_CR_ADSTART = 0) :
    (ADCBaremetal.main raws s).2 = (mainSetup s).2 ++ (loopRun raws (mainSetup s).1).2 ∧
    (∃ v : Nat, (mainSetup s).2.getLast? = some (Event.readReg Reg.ISR v) ∧
      v &&& ADC_ISR_ADRDY ≠ 0) ∧
    (∀ w : Nat, Event.writeReg Reg.CR w ∈ (mainSetup s).2 → w &&& ADC_CR_ADSTART = 0) := by
  have hg : (gpioSetup s).1.CR = s.CR := rfl
  have hprops := adc_init_trace_props (gpioSetup s).1 (by rw [hg]; exact h)
  refine ⟨rfl, ?_, ?_⟩
  · obtain ⟨v, hv, hvne⟩ := hprops.1
    refine ⟨v, ?_, hvne⟩
    show ((gpioSetup s).2 ++ (adc_init (gpioSetup s).1).2).getLast? = _
    rw [List.getLast?_append, hv]
    rfl
  · intro w hw
    have : Event.writeReg Reg.CR w ∈ (gpioSetup s).2 ++ (adc_init (gpioSetup s).1).2 := hw
    rw [List.mem_append] at this
    rcases this with hm | hm
    · simp [gpioSetup] at hm
    · exact hprops.2 w hm

/-- Witness for C4: reset state, one loop iteration. -/
theorem convert_unreachable_before_ready_witness :
    zeroRegs.CR &&& ADC_CR_ADSTART = 0 ∧
    ((ADCBaremetal.main [1] zeroRegs).2 =
        (mainSetup zeroRegs).2 ++ (loopRun [1] (mainSetup zeroRegs).1).2 ∧
      (∃ v : Nat, (mainSetup zeroRegs).2.getLast? = some (Event.readReg Reg.ISR v) ∧
        v &&& ADC_ISR_ADRDY ≠ 0) ∧
      (∀ w : Nat, Event.writeReg Reg.CR w ∈ (mainSetup zeroRegs).2 →
        w &&& ADC_CR_ADSTART = 0)) :=
  ⟨by decide, convert_unreachable_before_ready zeroRegs [1] (by decide)⟩


end ADCBaremetal
